import Mathlib

/-!
# Verification of the `TimeTracker` call-timing utility

Shallow embedding of `src/lib/time_tracker.py`.

The Python module keeps two parallel stacks, `entering_times` (entry
timestamps of currently active instrumented calls) and `total_times`
(per-active-call accumulators of nested-call time, plus one permanent
root slot).  `_enter` pushes the current clock value and a zero
accumulator; `_exit` pops both, computes `total_time` and
`partial_time`, adds `total_time` into the new top accumulator and
hands a timing record to the logger.  `time_track` wraps a callable so
that `_enter` runs before the body and `_exit` runs in a `finally`
block, re-raising the body's failure.

Modelling choices:
* Clock values live in an arbitrary additive commutative group `τ`
  (the Python code uses floats; every claim is about the additive
  bookkeeping, so we state them for any `AddCommGroup`).  `time.time()`
  becomes an explicit `now : τ` argument / a `time` field of the world.
* Python lists used as stacks (append / pop / `[-1]` at the right end)
  become Lean lists with the head as the stack top.
* A Python statement sequence that can raise mid-way becomes an
  `Except` whose error also carries the state at the point where the
  exception was raised, so partial mutation is observable.
* Python's single dynamic exception type becomes a type `ε` together
  with an injection `exc : ExitError → ε` for the exceptions the
  tracker itself can raise.
* The logger collaborator becomes a predicate `loggerOk` saying on
  which records its `log` method succeeds; a successful `log` appends
  the record to the world's `log` list.
-/

/-- The timing record passed to `logger.log` by `TimeTracker._exit`
(the dict literal at `src/lib/time_tracker.py` lines 34-40).  Argument
values are opaque to the tracker, hence a type parameter `V`. -/
structure TimingRecord (τ : Type) (V : Type) where
  function_name : String
  args : List V
  kwargs : List (String × V)
  total_time : τ
  partial_time : τ
deriving Repr, DecidableEq

/-- The pair of parallel stacks owned (or shared) by a `TimeTracker`
instance: `self._entering_times` and `self._total_times`.  The head of
each list is the stack top (the Python code pushes and pops at the
right end of the list). -/
structure TrackerState (τ : Type) where
  entering_times : List τ
  total_times : List τ
deriving Repr, DecidableEq

/-- The state a fresh pair of stacks starts in: `[]` and `[0]`
(`TimeTracker.__init__`, isolated branch, and the module-level globals
`_time_tracker_global_entering_times = []`,
`_time_tracker_global_total_times = [0]`). -/
def TimeTracker.initState (τ : Type) [Zero τ] : TrackerState τ :=
  ⟨[], [(0 : τ)]⟩

/-- `TimeTracker._enter`: append `time.time()` to `entering_times` and
`0` to `total_times`. -/
def TimeTracker._enter {τ : Type} [Zero τ] (now : τ) (s : TrackerState τ) :
    TrackerState τ :=
  ⟨now :: s.entering_times, (0 : τ) :: s.total_times⟩

/-- The ways `TimeTracker._exit` can raise: `unbalancedStack` is the
pop-on-empty `IndexError` on `self._entering_times.pop()` (the spec's
`UnbalancedStackError`); `missingAccumulator` is the `IndexError` on
`self._total_times.pop()` or `self._total_times[-1]` (unreachable from
states satisfying the length invariant); `loggerFailure` is an
exception raised inside `self._logger.log`. -/
inductive ExitError where
  | unbalancedStack
  | missingAccumulator
  | loggerFailure
deriving Repr, DecidableEq

/-- The stack bookkeeping of `TimeTracker._exit` (lines 25-32 plus the
record construction of lines 34-40), without the logger call:
pop `enter_time`, pop `inner_total_time`, compute
`total_time = exit_time - enter_time` and
`partial_time = total_time - inner_total_time`, add `total_time` into
the new top `self._total_times[-1]`, and build the record.  An error
carries the state at the point the corresponding Python statement
raises, so partial mutation is observable. -/
def TimeTracker.exitCore {τ V : Type} [AddCommGroup τ] (now : τ)
    (function_name : String) (args : List V) (kwargs : List (String × V))
    (s : TrackerState τ) :
    Except (ExitError × TrackerState τ) (TrackerState τ × TimingRecord τ V) :=
  match s.entering_times with
  | [] => .error (.unbalancedStack, s)
  | enter_time :: rest_entering =>
    match s.total_times with
    | [] => .error (.missingAccumulator, ⟨rest_entering, []⟩)
    | inner_total_time :: rest_total =>
      let exit_time := now
      let total_time := exit_time - enter_time
      let partial_time := total_time - inner_total_time
      match rest_total with
      | [] => .error (.missingAccumulator, ⟨rest_entering, []⟩)
      | top :: deeper =>
        .ok (⟨rest_entering, (top + total_time) :: deeper⟩,
             ⟨function_name, args, kwargs, total_time, partial_time⟩)

/-- The world a wrapped call runs in: the current clock value, the
tracker's stacks, and the list of records successfully handed to the
logger so far (oldest first). -/
structure World (τ : Type) (V : Type) where
  time : τ
  tracker : TrackerState τ
  log : List (TimingRecord τ V)
deriving Repr, DecidableEq

/-- Full `TimeTracker._exit`: the stack bookkeeping of `exitCore`
followed by `self._logger.log(record)`.  `loggerOk` says on which
records the logger's `log` succeeds; on success the record is appended
to the world's log.  If the logger raises, the error escapes after all
stack mutations are done, as in the Python source where the
`self._logger.log` call is the last statement of `_exit`. -/
def TimeTracker._exit {τ V : Type} [AddCommGroup τ]
    (loggerOk : TimingRecord τ V → Bool) (function_name : String)
    (args : List V) (kwargs : List (String × V)) (w : World τ V) :
    Except (ExitError × World τ V) (World τ V) :=
  match TimeTracker.exitCore w.time function_name args kwargs w.tracker with
  | .error (e, s') => .error (e, { w with tracker := s' })
  | .ok (s', record) =>
    if loggerOk record then
      .ok { w with tracker := s', log := w.log ++ [record] }
    else
      .error (.loggerFailure, { w with tracker := s' })

/-- The type of an instrumentable callable: positional arguments,
keyword arguments, and the world in; either a result or a failure of
type `ε` out, in both cases with the world at that point.  The body
may advance the clock (sleep) and may itself invoke wrapped
callables. -/
def BodyFn (τ V ε : Type) : Type :=
  List V → List (String × V) → World τ V →
    Except (ε × World τ V) (V × World τ V)

/-- The closure `wrapped` built by `TimeTracker.time_track` (lines
51-58): `self._enter()`, then the body with the exact arguments
received, then — on both the normal and the raising path, as the
Python `finally` block — `self._exit(function.__name__, args, kwargs)`.
If the body raised and `_exit` completes, the body's failure is
re-raised unchanged; if `_exit` itself raises, that exception
propagates instead (Python `finally` semantics).  `exc` injects the
tracker's own exceptions into the common failure type `ε`. -/
def wrapped {τ V ε : Type} [AddCommGroup τ]
    (exc : ExitError → ε) (loggerOk : TimingRecord τ V → Bool)
    (function_name : String) (body : BodyFn τ V ε) : BodyFn τ V ε :=
  fun args kwargs w =>
    let w1 : World τ V := { w with tracker := TimeTracker._enter w.time w.tracker }
    match body args kwargs w1 with
    | .ok (result, w2) =>
      match TimeTracker._exit loggerOk function_name args kwargs w2 with
      | .ok w3 => .ok (result, w3)
      | .error (e, w3) => .error (exc e, w3)
    | .error (e, w2) =>
      match TimeTracker._exit loggerOk function_name args kwargs w2 with
      | .ok w3 => .error (e, w3)
      | .error (e2, w3) => .error (exc e2, w3)

/-- `TimeTracker.time_track` (line 61): the decorator applied to one
callable.  When `do_time_tracking` is true it returns the `wrapped`
closure; otherwise it is `lambda function: function`, returning the
original callable unchanged. -/
def time_track {τ V ε : Type} [AddCommGroup τ] (do_time_tracking : Bool)
    (exc : ExitError → ε) (loggerOk : TimingRecord τ V → Bool)
    (function_name : String) (body : BodyFn τ V ε) : BodyFn τ V ε :=
  if do_time_tracking then wrapped exc loggerOk function_name body else body

/-- The world a run of a body ends in, whether it returned or
raised. -/
def resultWorld {τ V ε : Type}
    (r : Except (ε × World τ V) (V × World τ V)) : World τ V :=
  match r with
  | .ok (_, w) => w
  | .error (_, w) => w

/-- The length invariant of the data model:
`len(total_times) == len(entering_times) + 1`. -/
def TrackerState.inv {τ : Type} (s : TrackerState τ) : Prop :=
  s.total_times.length = s.entering_times.length + 1

instance {τ : Type} (s : TrackerState τ) : Decidable s.inv := by
  unfold TrackerState.inv; infer_instance

/-- One tracker operation: an `_enter` at clock value `now`, or an
`_exit` at clock value `now` with the name and arguments the wrapper
passes along.  A run of a wrapped program performs exactly such a
sequence of operations on the tracker. -/
inductive Op (τ : Type) (V : Type) where
  | enter (now : τ)
  | exit (now : τ) (function_name : String) (args : List V)
      (kwargs : List (String × V))
deriving Repr, DecidableEq

/-- Run a sequence of tracker operations on a state, accumulating the
records handed to the logger (the logger is taken to succeed on every
record, as the demo logger of `src/examples.py` does).  An `_exit`
failure aborts the run, carrying the state and log at that point. -/
def runOps {τ V : Type} [AddCommGroup τ] :
    List (Op τ V) → TrackerState τ → List (TimingRecord τ V) →
    Except (ExitError × TrackerState τ × List (TimingRecord τ V))
      (TrackerState τ × List (TimingRecord τ V))
  | [], s, log => .ok (s, log)
  | .enter t :: rest, s, log => runOps rest (TimeTracker._enter t s) log
  | .exit t f a k :: rest, s, log =>
    match TimeTracker.exitCore t f a k s with
    | .error (e, s') => .error (e, s', log)
    | .ok (s', r) => runOps rest s' (log ++ [r])

/-- Properly nested (LIFO-matched) operation sequences, together with
the list of `total_time` values of their top-level calls in order:
the empty sequence, or an `enter` at `t`, a balanced inner sequence,
the matching `exit` at `t2` (a top-level call of total time `t2 - t`),
followed by further balanced operations. -/
inductive TopSeq {τ V : Type} [AddCommGroup τ] :
    List (Op τ V) → List τ → Prop where
  | nil : TopSeq [] []
  | cons {inner rest : List (Op τ V)} {tsi tsr : List τ} {t t2 : τ}
      {f : String} {a : List V} {k : List (String × V)}
      (hinner : TopSeq inner tsi) (hrest : TopSeq rest tsr) :
      TopSeq (Op.enter t :: inner ++ Op.exit t2 f a k :: rest) ((t2 - t) :: tsr)

/-- A handle to the stacks a `TimeTracker` instance uses:
`TimeTracker.__init__` either creates fresh stacks (isolated mode,
identified by `i : ι`) or aliases the module-level globals
`_time_tracker_global_entering_times` / `_time_tracker_global_total_times`
(shared mode; `k : κ` identifies the instance, all of which reference
the one global pair). -/
inductive Handle (ι κ : Type) where
  | shared (k : κ)
  | isolated (i : ι)
deriving Repr, DecidableEq

/-- The process-wide picture: the module-level global pair of stacks
and the private pair of each isolated instance. -/
structure Process (ι κ τ : Type) where
  globalState : TrackerState τ
  iso : ι → TrackerState τ

/-- The stacks a handle refers to: every shared instance reads the one
global pair; an isolated instance reads its own pair. -/
def Process.read {ι κ τ : Type} (p : Process ι κ τ) :
    Handle ι κ → TrackerState τ
  | .shared _ => p.globalState
  | .isolated i => p.iso i

/-- Replace the stacks a handle refers to. -/
def Process.write {ι κ τ : Type} [DecidableEq ι] (p : Process ι κ τ) :
    Handle ι κ → TrackerState τ → Process ι κ τ
  | .shared _, s => { p with globalState := s }
  | .isolated i, s => { p with iso := fun j => if j = i then s else p.iso j }

/-- Constructing an isolated instance (`__init__` with `isolated=True`):
its handle gets fresh stacks `[]` / `[0]`. -/
def Process.newIsolated {ι κ τ : Type} [DecidableEq ι] [Zero τ]
    (p : Process ι κ τ) (i : ι) : Process ι κ τ :=
  p.write (.isolated i) (TimeTracker.initState τ)

/-- `_enter` performed through a handle: same operation in both modes,
applied to whichever stacks the handle references. -/
def Process.enterOn {ι κ τ : Type} [DecidableEq ι] [Zero τ]
    (p : Process ι κ τ) (h : Handle ι κ) (now : τ) : Process ι κ τ :=
  p.write h (TimeTracker._enter now (p.read h))

/-- `_exit` bookkeeping performed through a handle: same operation in
both modes, applied to whichever stacks the handle references. -/
def Process.exitOn {ι κ τ V : Type} [DecidableEq ι] [AddCommGroup τ]
    (p : Process ι κ τ) (h : Handle ι κ) (now : τ) (function_name : String)
    (args : List V) (kwargs : List (String × V)) :
    Except (ExitError × Process ι κ τ) (Process ι κ τ × TimingRecord τ V) :=
  match TimeTracker.exitCore now function_name args kwargs (p.read h) with
  | .error (e, s') => .error (e, p.write h s')
  | .ok (s', r) => .ok (p.write h s', r)

/-- Evaluation of `exitCore` on a state with a non-empty entry stack
and at least two accumulators (every state the length invariant allows
an exit from). -/
theorem exitCore_cons {τ V : Type} [AddCommGroup τ] (now : τ)
    (f : String) (a : List V) (k : List (String × V)) (et : τ)
    (E : List τ) (c top : τ) (A : List τ) :
    TimeTracker.exitCore now f a k ⟨et :: E, c :: top :: A⟩ =
      .ok (⟨E, (top + (now - et)) :: A⟩,
           ⟨f, a, k, now - et, (now - et) - c⟩) := rfl

/-- Evaluation of one `exit` step of `runOps` under the same shape
hypotheses. -/
theorem runOps_exit_cons {τ V : Type} [AddCommGroup τ] (t2 : τ)
    (f : String) (ar : List V) (k : List (String × V))
    (rest : List (Op τ V)) (et : τ) (E : List τ) (c top : τ) (A : List τ)
    (log : List (TimingRecord τ V)) :
    runOps (Op.exit t2 f ar k :: rest) ⟨et :: E, c :: top :: A⟩ log =
      runOps rest ⟨E, (top + (t2 - et)) :: A⟩
        (log ++ [⟨f, ar, k, t2 - et, (t2 - et) - c⟩]) := by
  simp [runOps, exitCore_cons]

/-- Running a concatenation of operation lists: if the first part
completes, the second runs from where it left off. -/
theorem runOps_append_ok {τ V : Type} [AddCommGroup τ]
    {l1 : List (Op τ V)} (l2 : List (Op τ V)) {s s' : TrackerState τ}
    {log log' : List (TimingRecord τ V)}
    (h : runOps l1 s log = .ok (s', log')) :
    runOps (l1 ++ l2) s log = runOps l2 s' log' := by
  induction l1 generalizing s log with
  | nil =>
    simp only [runOps, Except.ok.injEq, Prod.mk.injEq] at h
    simp [h.1, h.2]
  | cons op rest ih =>
    cases op with
    | enter t =>
      simp only [runOps] at h ⊢
      exact ih h
    | exit t f a k =>
      simp only [runOps] at h ⊢
      cases hc : TimeTracker.exitCore t f a k s with
      | error e =>
        rw [hc] at h
        obtain ⟨e1, s1⟩ := e
        simp at h
      | ok p =>
        rw [hc] at h
        obtain ⟨s1, r1⟩ := p
        exact ih h

/-- A properly nested operation sequence run from any state whose
accumulator stack is non-empty completes, restores the entry stack
exactly, and adds the sum of its top-level total times into the top
accumulator. -/
theorem runOps_topSeq {τ V : Type} [AddCommGroup τ]
    {ops : List (Op τ V)} {ts : List τ} (h : TopSeq ops ts) :
    ∀ (E A : List τ) (a : τ) (log : List (TimingRecord τ V)),
      ∃ log', runOps ops ⟨E, a :: A⟩ log =
        .ok (⟨E, (a + ts.sum) :: A⟩, log') ∧ log <+: log' := by
  induction h with
  | nil =>
    intro E A a log
    exact ⟨log, by simp [runOps], List.prefix_rfl⟩
  | @cons inner rest tsi tsr t t2 f ar k hinner hrest ihi ihr =>
    intro E A a log
    obtain ⟨log1, h1, hp1⟩ := ihi (t :: E) (a :: A) 0 log
    obtain ⟨log2, h2, hp2⟩ :=
      ihr E A (a + (t2 - t)) (log1 ++ [⟨f, ar, k, t2 - t, (t2 - t) - (0 + tsi.sum)⟩])
    refine ⟨log2, ?_, ?_⟩
    · calc runOps (Op.enter t :: inner ++ Op.exit t2 f ar k :: rest)
            (⟨E, a :: A⟩ : TrackerState τ) log
          = runOps (inner ++ Op.exit t2 f ar k :: rest)
            ⟨t :: E, 0 :: a :: A⟩ log := rfl
        _ = runOps (Op.exit t2 f ar k :: rest)
            ⟨t :: E, (0 + tsi.sum) :: a :: A⟩ log1 :=
            runOps_append_ok _ h1
        _ = runOps rest ⟨E, (a + (t2 - t)) :: A⟩
            (log1 ++ [⟨f, ar, k, t2 - t, (t2 - t) - (0 + tsi.sum)⟩]) :=
            runOps_exit_cons t2 f ar k rest t E (0 + tsi.sum) a A log1
        _ = .ok (⟨E, (a + (t2 - t) + tsr.sum) :: A⟩, log2) := h2
        _ = .ok (⟨E, (a + ((t2 - t) :: tsr).sum) :: A⟩, log2) := by
            rw [List.sum_cons, add_assoc]
    · exact hp1.trans ((List.prefix_append _ _).trans hp2)

/-- Structure eta for the stack pair. -/
theorem TrackerState.eta {τ : Type} (s : TrackerState τ) :
    s = ⟨s.entering_times, s.total_times⟩ := rfl

/-- Evaluation of the full `_exit` on a world whose tracker has a
non-empty entry stack and at least two accumulators: all stack
mutations happen, then the logger either accepts the record (appended
to the log) or raises (the error escapes with the stacks already in
their popped state and the log unchanged). -/
theorem TimeTracker.exit_eval {τ V : Type} [AddCommGroup τ]
    (loggerOk : TimingRecord τ V → Bool) (fn : String) (args : List V)
    (kwargs : List (String × V)) (w : World τ V) (et : τ) (E : List τ)
    (c top : τ) (A : List τ)
    (hE : w.tracker.entering_times = et :: E)
    (hT : w.tracker.total_times = c :: top :: A) :
    TimeTracker._exit loggerOk fn args kwargs w =
      if loggerOk ⟨fn, args, kwargs, w.time - et, (w.time - et) - c⟩ then
        .ok ⟨w.time, ⟨E, (top + (w.time - et)) :: A⟩,
             w.log ++ [⟨fn, args, kwargs, w.time - et, (w.time - et) - c⟩]⟩
      else
        .error (.loggerFailure,
                ⟨w.time, ⟨E, (top + (w.time - et)) :: A⟩, w.log⟩) := by
  have htr : w.tracker = ⟨et :: E, c :: top :: A⟩ := by
    rw [TrackerState.eta w.tracker, hE, hT]
  unfold TimeTracker._exit
  rw [htr, exitCore_cons]

/-- C1: on every tracker state with a non-empty entry-timestamp stack
(and the accumulator stack the length invariant guarantees), `_exit`
pops the most recent entry timestamp `et` and the most recent child
accumulator `c`, computes `total_time = now - et` and
`partial_time = total_time - c`, and adds `total_time` into the new
top-of-stack accumulator `top`, so the parent's eventual
`partial_time` excludes this child's total. -/
theorem exit_pops_and_accumulates {τ V : Type} [AddCommGroup τ]
    (now : τ) (fn : String) (args : List V) (kwargs : List (String × V))
    (s : TrackerState τ) (et : τ) (E : List τ)
    (hE : s.entering_times = et :: E) (hinv : s.inv) :
    ∃ c top A, s.total_times = c :: top :: A ∧
      TimeTracker.exitCore now fn args kwargs s =
        .ok (⟨E, (top + (now - et)) :: A⟩,
             ⟨fn, args, kwargs, now - et, (now - et) - c⟩) := by
  unfold TrackerState.inv at hinv
  rw [hE] at hinv
  match hT : s.total_times with
  | [] => rw [hT] at hinv; simp at hinv
  | [c] => rw [hT] at hinv; simp at hinv
  | c :: top :: A =>
    refine ⟨c, top, A, rfl, ?_⟩
    have htr : s = ⟨et :: E, c :: top :: A⟩ := by
      rw [TrackerState.eta s, hE, hT]
    rw [htr, exitCore_cons]

/-- C3: calling `_exit` on a tracker whose entry-timestamp stack is
empty fails with the pop-on-empty error (the spec's
`UnbalancedStackError`) and leaves the whole world — both stacks and
the log — exactly as it was. -/
theorem exit_empty_stack_unbalanced {τ V : Type} [AddCommGroup τ]
    (loggerOk : TimingRecord τ V → Bool) (fn : String) (args : List V)
    (kwargs : List (String × V)) (w : World τ V)
    (h : w.tracker.entering_times = []) :
    TimeTracker._exit loggerOk fn args kwargs w =
      .error (.unbalancedStack, w) ∧
    TimeTracker.exitCore w.time fn args kwargs w.tracker =
      .error (.unbalancedStack, w.tracker) := by
  have hcore : TimeTracker.exitCore (V := V) w.time fn args kwargs w.tracker =
      .error (.unbalancedStack, w.tracker) := by
    rw [TrackerState.eta w.tracker, h]
    rfl
  refine ⟨?_, hcore⟩
  unfold TimeTracker._exit
  rw [hcore]

/-- C4: the length invariant
`len(total_times) == len(entering_times) + 1` holds for a fresh
tracker (zero entry timestamps, exactly one root accumulator), is
preserved by `_enter` (which appends one element to each stack) and by
every successful `_exit` (which removes one element from each). -/
theorem tracker_length_invariant (τ V : Type) [AddCommGroup τ] :
    (TimeTracker.initState τ).inv ∧
    (TimeTracker.initState τ).entering_times.length = 0 ∧
    (TimeTracker.initState τ).total_times.length = 1 ∧
    (∀ (now : τ) (s : TrackerState τ),
      (TimeTracker._enter now s).entering_times.length =
        s.entering_times.length + 1 ∧
      (TimeTracker._enter now s).total_times.length =
        s.total_times.length + 1 ∧
      (s.inv → (TimeTracker._enter now s).inv)) ∧
    (∀ (now : τ) (fn : String) (args : List V) (kwargs : List (String × V))
       (s s' : TrackerState τ) (r : TimingRecord τ V),
      TimeTracker.exitCore now fn args kwargs s = .ok (s', r) →
      s'.entering_times.length + 1 = s.entering_times.length ∧
      s'.total_times.length + 1 = s.total_times.length ∧
      (s.inv → s'.inv)) := by
  refine ⟨rfl, rfl, rfl, ?_, ?_⟩
  · intro now s
    exact ⟨rfl, rfl, fun h => by
      unfold TrackerState.inv at h ⊢
      simp [TimeTracker._enter, h]⟩
  · intro now fn args kwargs s s' r hexit
    obtain ⟨ets, tots⟩ := s
    match ets, tots with
    | [], tots =>
      simp [TimeTracker.exitCore] at hexit
    | et :: E, [] =>
      simp [TimeTracker.exitCore] at hexit
    | et :: E, [c] =>
      simp [TimeTracker.exitCore] at hexit
    | et :: E, c :: top :: A =>
      rw [exitCore_cons] at hexit
      obtain ⟨hs, hr⟩ := by exact Prod.mk.injEq .. ▸ Except.ok.inj hexit
      subst hs
      refine ⟨rfl, rfl, fun h => ?_⟩
      unfold TrackerState.inv at h ⊢
      simpa using h

/-- C5: with `do_time_tracking = False`, `time_track` is
`lambda function: function`: it returns the original callable
unchanged, so on every input the returned callable produces exactly
the same outcome (same results, same failures) as the original, and if
the original never mutates the tracker, neither does the returned
callable. -/
theorem time_track_disabled_identity {τ V ε : Type} [AddCommGroup τ]
    (exc : ExitError → ε) (loggerOk : TimingRecord τ V → Bool)
    (fn : String) (body : BodyFn τ V ε) :
    time_track false exc loggerOk fn body = body ∧
    (∀ (args : List V) (kwargs : List (String × V)) (w : World τ V),
      time_track false exc loggerOk fn body args kwargs w =
        body args kwargs w) ∧
    ((∀ (args : List V) (kwargs : List (String × V)) (w : World τ V),
        (resultWorld (body args kwargs w)).tracker = w.tracker) →
      ∀ (args : List V) (kwargs : List (String × V)) (w : World τ V),
        (resultWorld (time_track false exc loggerOk fn body args kwargs w)).tracker
          = w.tracker) := by
  exact ⟨rfl, fun _ _ _ => rfl, fun h => h⟩

/-- C6: when the body completes normally, the wrapper has invoked it
with exactly the received positional and keyword arguments, returns
its result unchanged, and hands the logger exactly one record carrying
the wrapped callable's name together with those same arguments (plus
the computed `total_time` and `partial_time`). -/
theorem wrapped_transparent_on_success {τ V ε : Type} [AddCommGroup τ]
    (exc : ExitError → ε) (loggerOk : TimingRecord τ V → Bool)
    (fn : String) (body : BodyFn τ V ε) (args : List V)
    (kwargs : List (String × V)) (w : World τ V) (v : V) (w2 : World τ V)
    (et : τ) (E : List τ) (c top : τ) (A : List τ)
    (hbody : body args kwargs
        ⟨w.time, TimeTracker._enter w.time w.tracker, w.log⟩ = .ok (v, w2))
    (hE : w2.tracker.entering_times = et :: E)
    (hT : w2.tracker.total_times = c :: top :: A)
    (hlog : loggerOk ⟨fn, args, kwargs, w2.time - et, (w2.time - et) - c⟩ = true) :
    wrapped exc loggerOk fn body args kwargs w =
      .ok (v, ⟨w2.time, ⟨E, (top + (w2.time - et)) :: A⟩,
               w2.log ++ [⟨fn, args, kwargs, w2.time - et, (w2.time - et) - c⟩]⟩) := by
  unfold wrapped
  simp only [hbody]
  rw [TimeTracker.exit_eval loggerOk fn args kwargs w2 et E c top A hE hT,
      if_pos hlog]

/-- C2: when the body raises, the wrapper still runs `_exit` (the
`finally` block), which hands the logger exactly one record for this
call appended after whatever the body (including any still-unwound
nested wrapped calls) already logged, and then re-raises the body's
failure `e` itself, unchanged.  Since a wrapped callable is again a
`BodyFn`, applying this theorem at each enclosing wrapper gives one
further record per still-unwound ancestor call as the failure
propagates. -/
theorem wrapped_logs_and_reraises_on_failure {τ V ε : Type} [AddCommGroup τ]
    (exc : ExitError → ε) (loggerOk : TimingRecord τ V → Bool)
    (fn : String) (body : BodyFn τ V ε) (args : List V)
    (kwargs : List (String × V)) (w : World τ V) (e : ε) (w2 : World τ V)
    (et : τ) (E : List τ) (c top : τ) (A : List τ)
    (hbody : body args kwargs
        ⟨w.time, TimeTracker._enter w.time w.tracker, w.log⟩ = .error (e, w2))
    (hE : w2.tracker.entering_times = et :: E)
    (hT : w2.tracker.total_times = c :: top :: A)
    (hlog : loggerOk ⟨fn, args, kwargs, w2.time - et, (w2.time - et) - c⟩ = true) :
    wrapped exc loggerOk fn body args kwargs w =
      .error (e, ⟨w2.time, ⟨E, (top + (w2.time - et)) :: A⟩,
                  w2.log ++ [⟨fn, args, kwargs, w2.time - et, (w2.time - et) - c⟩]⟩) := by
  unfold wrapped
  simp only [hbody]
  rw [TimeTracker.exit_eval loggerOk fn args kwargs w2 et E c top A hE hT,
      if_pos hlog]

/-- C7: for every starting state (whose accumulator stack is
non-empty, as the invariant guarantees) and every properly nested
(LIFO-matched) sequence of enter/exit pairs, the run succeeds and the
entry-timestamp stack afterwards equals the one before the first
enter — in particular both stack lengths are restored. -/
theorem nested_pairs_restore_depth {τ V : Type} [AddCommGroup τ]
    (ops : List (Op τ V)) (ts : List τ) (hops : TopSeq ops ts)
    (s : TrackerState τ) (a : τ) (A : List τ)
    (hA : s.total_times = a :: A) (log : List (TimingRecord τ V)) :
    ∃ s' log', runOps ops s log = .ok (s', log') ∧
      s'.entering_times = s.entering_times ∧
      s'.entering_times.length = s.entering_times.length ∧
      s'.total_times.length = s.total_times.length := by
  obtain ⟨log', h, _⟩ := runOps_topSeq hops s.entering_times A a log
  refine ⟨⟨s.entering_times, (a + ts.sum) :: A⟩, log', ?_, rfl, rfl, ?_⟩
  · rw [TrackerState.eta s, hA]
    exact h
  · rw [hA]
    rfl

/-- C9: the root accumulator slot survives every operation and, each
time the entry stack is empty again after a properly nested run from a
fresh tracker, holds exactly the sum of the `total_time` values of the
completed top-level calls (it starts at zero); a single `_exit` leaves
the last accumulator slot untouched when the call was nested at depth
two or more, and increases it by exactly the record's `total_time`
when the exiting call was at depth one. -/
theorem root_accumulator_totals (τ V : Type) [AddCommGroup τ] :
    (∀ (ops : List (Op τ V)) (ts : List τ), TopSeq ops ts →
      ∃ log', runOps ops (TimeTracker.initState τ) [] =
        .ok (⟨[], [ts.sum]⟩, log')) ∧
    (∀ (now : τ) (s : TrackerState τ),
      (TimeTracker._enter now s).total_times ≠ [] ∧
      (s.total_times ≠ [] →
        (TimeTracker._enter now s).total_times.getLast? =
          s.total_times.getLast?)) ∧
    (∀ (now : τ) (fn : String) (args : List V) (kwargs : List (String × V))
        (s s' : TrackerState τ) (r : TimingRecord τ V),
      TimeTracker.exitCore now fn args kwargs s = .ok (s', r) → s.inv →
      s'.total_times ≠ [] ∧
      (2 ≤ s.entering_times.length →
        s'.total_times.getLast? = s.total_times.getLast?) ∧
      (s.entering_times.length = 1 →
        ∃ root, s.total_times.getLast? = some root ∧
          s'.total_times.getLast? = some (root + r.total_time))) := by
  refine ⟨?_, ?_, ?_⟩
  · intro ops ts h
    obtain ⟨log', hr, _⟩ := runOps_topSeq h [] [] 0 []
    rw [zero_add] at hr
    exact ⟨log', hr⟩
  · intro now s
    refine ⟨by simp [TimeTracker._enter], ?_⟩
    intro h
    show ((0 : τ) :: s.total_times).getLast? = s.total_times.getLast?
    cases hT : s.total_times with
    | nil => exact absurd hT h
    | cons b l => rw [List.getLast?_cons_cons]
  · intro now fn args kwargs s s' r hexit hinv
    obtain ⟨ets, tots⟩ := s
    match ets, tots with
    | [], tots => simp [TimeTracker.exitCore] at hexit
    | et :: E, [] => simp [TimeTracker.exitCore] at hexit
    | et :: E, [c] => simp [TimeTracker.exitCore] at hexit
    | et :: E, c :: top :: A =>
      rw [exitCore_cons] at hexit
      obtain ⟨hs, hr⟩ := by exact Prod.mk.injEq .. ▸ Except.ok.inj hexit
      subst hs
      subst hr
      have hlen : A.length = E.length := by
        simpa [TrackerState.inv] using hinv
      refine ⟨by simp, ?_, ?_⟩
      · intro h2
        have hE1 : 1 ≤ E.length := by simpa using h2
        have hA1 : 1 ≤ A.length := hlen ▸ hE1
        obtain ⟨a0, A', rfl⟩ : ∃ a0 A', A = a0 :: A' := by
          cases A with
          | nil => simp at hA1
          | cons x xs => exact ⟨x, xs, rfl⟩
        show ((top + (now - et)) :: a0 :: A').getLast? =
          (c :: top :: a0 :: A').getLast?
        rw [List.getLast?_cons_cons, List.getLast?_cons_cons,
            List.getLast?_cons_cons]
      · intro h1
        have hE0 : E = [] := by
          cases E with
          | nil => rfl
          | cons x xs => simp at h1
        subst hE0
        have hA0 : A = [] := List.length_eq_zero.mp (by simpa using hlen)
        subst hA0
        exact ⟨top, rfl, rfl⟩

/-- C10: inside `_exit`, both pops and the addition of `total_time`
into the new top accumulator complete before `logger.log` runs; when
the logger raises, the error escapes with the tracker already in the
fully popped state (which still satisfies the length invariant) and
the log unchanged. -/
theorem exit_logger_failure_leaves_popped_state {τ V : Type} [AddCommGroup τ]
    (loggerOk : TimingRecord τ V → Bool) (fn : String) (args : List V)
    (kwargs : List (String × V)) (w : World τ V) (et : τ) (E : List τ)
    (c top : τ) (A : List τ)
    (hE : w.tracker.entering_times = et :: E)
    (hT : w.tracker.total_times = c :: top :: A)
    (hlog : loggerOk ⟨fn, args, kwargs, w.time - et, (w.time - et) - c⟩ = false) :
    TimeTracker._exit loggerOk fn args kwargs w =
      .error (.loggerFailure, ⟨w.time, ⟨E, (top + (w.time - et)) :: A⟩, w.log⟩) ∧
    (w.tracker.inv → TrackerState.inv ⟨E, (top + (w.time - et)) :: A⟩) := by
  refine ⟨?_, ?_⟩
  · rw [TimeTracker.exit_eval loggerOk fn args kwargs w et E c top A hE hT,
        if_neg (by simp [hlog])]
  · intro hinv
    unfold TrackerState.inv at hinv ⊢
    rw [hE, hT] at hinv
    simpa using hinv

/-- C8: instancing mode is fixed at construction.  An isolated
instance gets fresh stacks and its enter/exit operations leave the
global pair and every other isolated instance's pair unchanged; all
shared instances reference the one global pair, so an enter on any
shared instance is observed identically through every shared handle;
and the enter/exit semantics applied through a handle are the very
same `_enter` / `exitCore` in both modes. -/
theorem instancing_modes (ι κ τ V : Type) [DecidableEq ι] [AddCommGroup τ] :
    (∀ (p : Process ι κ τ) (i : ι) (now : τ),
      (p.enterOn (.isolated i) now).globalState = p.globalState ∧
      (∀ j, j ≠ i → (p.enterOn (.isolated i) now).iso j = p.iso j) ∧
      (p.enterOn (.isolated i) now).read (.isolated i) =
        TimeTracker._enter now (p.read (.isolated i))) ∧
    (∀ (p : Process ι κ τ) (i : ι) (now : τ) (fn : String) (args : List V)
        (kwargs : List (String × V)) (p' : Process ι κ τ)
        (r : TimingRecord τ V),
      p.exitOn (.isolated i) now fn args kwargs = .ok (p', r) →
      p'.globalState = p.globalState ∧ ∀ j, j ≠ i → p'.iso j = p.iso j) ∧
    (∀ (p : Process ι κ τ) (i : ι),
      (p.newIsolated i).read (.isolated i) = TimeTracker.initState τ ∧
      (p.newIsolated i).globalState = p.globalState ∧
      ∀ j, j ≠ i → (p.newIsolated i).iso j = p.iso j) ∧
    (∀ (p : Process ι κ τ) (k k2 : κ) (now : τ),
      (p.enterOn (.shared k) now).read (.shared k2) =
        TimeTracker._enter now (p.read (.shared k)) ∧
      ∀ i, (p.enterOn (.shared k) now).iso i = p.iso i) ∧
    (∀ (p : Process ι κ τ) (h : Handle ι κ) (now : τ),
      (p.enterOn h now).read h = TimeTracker._enter now (p.read h)) ∧
    (∀ (p : Process ι κ τ) (h : Handle ι κ) (now : τ) (fn : String)
        (args : List V) (kwargs : List (String × V)) (s' : TrackerState τ)
        (r : TimingRecord τ V),
      TimeTracker.exitCore now fn args kwargs (p.read h) = .ok (s', r) →
      p.exitOn h now fn args kwargs = .ok (p.write h s', r) ∧
      (p.write h s').read h = s') := by
  have hread_write : ∀ (p : Process ι κ τ) (h : Handle ι κ) (s : TrackerState τ),
      (p.write h s).read h = s := by
    intro p h s
    cases h with
    | shared k => rfl
    | isolated i => simp [Process.write, Process.read]
  refine ⟨?_, ?_, ?_, ?_, ?_, ?_⟩
  · intro p i now
    refine ⟨rfl, ?_, hread_write ..⟩
    intro j hj
    simp [Process.enterOn, Process.write, hj]
  · intro p i now fn args kwargs p' r hexit
    unfold Process.exitOn at hexit
    cases hc : TimeTracker.exitCore now fn args kwargs
        (p.read (.isolated i)) with
    | error e =>
      rw [hc] at hexit
      obtain ⟨e1, s1⟩ := e
      simp at hexit
    | ok q =>
      rw [hc] at hexit
      obtain ⟨s1, r1⟩ := q
      obtain ⟨hp, hr⟩ := by exact Prod.mk.injEq .. ▸ Except.ok.inj hexit
      subst hp
      refine ⟨rfl, ?_⟩
      intro j hj
      simp [Process.write, hj]
  · intro p i
    refine ⟨hread_write .., rfl, ?_⟩
    intro j hj
    simp [Process.newIsolated, Process.write, hj]
  · intro p k k2 now
    exact ⟨rfl, fun i => rfl⟩
  · intro p h now
    exact hread_write ..
  · intro p h now fn args kwargs s' r hexit
    refine ⟨?_, hread_write ..⟩
    unfold Process.exitOn
    rw [hexit]

/-- Concrete instance of the C1 theorem: exiting at clock 9 from state
`⟨[5], [2, 7]⟩`. -/
theorem exit_pops_and_accumulates_witness :
    ∃ c top A,
      (⟨[(5 : ℤ)], [2, 7]⟩ : TrackerState ℤ).total_times = c :: top :: A ∧
      TimeTracker.exitCore (9 : ℤ) "f" ([1] : List ℤ) [("x", 3)]
          ⟨[(5 : ℤ)], [2, 7]⟩ =
        .ok (⟨[], (top + ((9 : ℤ) - 5)) :: A⟩,
             ⟨"f", [1], [("x", 3)], (9 : ℤ) - 5, (9 : ℤ) - 5 - c⟩) :=
  exit_pops_and_accumulates 9 "f" [1] [("x", 3)] ⟨[5], [2, 7]⟩ 5 [] rfl
    (by decide)

/-- Concrete instance of the C2 theorem: a body that advances the
clock to 3 and raises `"boom"`. -/
theorem wrapped_logs_and_reraises_on_failure_witness :
    wrapped (fun _ => "") (fun _ => true) "f"
        (fun _ _ w1 => .error ("boom", ⟨3, w1.tracker, w1.log⟩)) [] []
        (⟨(0 : ℤ), ⟨[], [0]⟩, []⟩ : World ℤ ℤ) =
      .error ("boom", ⟨3, ⟨[], [(0 : ℤ) + ((3 : ℤ) - 0)]⟩,
                       [⟨"f", [], [], (3 : ℤ) - 0, (3 : ℤ) - 0 - 0⟩]⟩) :=
  wrapped_logs_and_reraises_on_failure (fun _ => "") (fun _ => true) "f"
    (fun _ _ w1 => .error ("boom", ⟨3, w1.tracker, w1.log⟩)) [] []
    ⟨0, ⟨[], [0]⟩, []⟩ "boom" ⟨3, ⟨[0], [0, 0]⟩, []⟩ 0 [] 0 0 []
    rfl rfl rfl rfl

/-- Concrete instance of the C3 theorem: exit on a fresh tracker. -/
theorem exit_empty_stack_unbalanced_witness :
    TimeTracker._exit (fun _ => true) "f" ([] : List ℤ) []
        (⟨(0 : ℤ), ⟨[], [0]⟩, []⟩ : World ℤ ℤ) =
      .error (.unbalancedStack, ⟨0, ⟨[], [0]⟩, []⟩) ∧
    TimeTracker.exitCore (0 : ℤ) "f" ([] : List ℤ) [] ⟨[], [0]⟩ =
      .error (.unbalancedStack, ⟨[], [0]⟩) :=
  exit_empty_stack_unbalanced (fun _ => true) "f" [] [] ⟨0, ⟨[], [0]⟩, []⟩ rfl

/-- Concrete instance of the C4 theorem: the successful exit at clock
9 from `⟨[5], [2, 7]⟩` shortens both stacks by one and keeps the
invariant. -/
theorem tracker_length_invariant_witness :
    (⟨[], [(7 : ℤ) + ((9 : ℤ) - 5)]⟩ : TrackerState ℤ).entering_times.length + 1 =
      (⟨[(5 : ℤ)], [2, 7]⟩ : TrackerState ℤ).entering_times.length ∧
    (⟨[], [(7 : ℤ) + ((9 : ℤ) - 5)]⟩ : TrackerState ℤ).total_times.length + 1 =
      (⟨[(5 : ℤ)], [2, 7]⟩ : TrackerState ℤ).total_times.length ∧
    ((⟨[(5 : ℤ)], [2, 7]⟩ : TrackerState ℤ).inv →
      (⟨[], [(7 : ℤ) + ((9 : ℤ) - 5)]⟩ : TrackerState ℤ).inv) :=
  (tracker_length_invariant ℤ ℤ).2.2.2.2 9 "f" [] [] ⟨[5], [2, 7]⟩
    ⟨[], [7 + (9 - 5)]⟩ ⟨"f", [], [], 9 - 5, 9 - 5 - 2⟩
    (exitCore_cons 9 "f" [] [] 5 [] 2 7 [])

/-- Concrete instance of the C5 theorem: the disabled decorator leaves
the tracker of a pure body untouched. -/
theorem time_track_disabled_identity_witness :
    (resultWorld (time_track false (fun _ => "") (fun _ => true) "f"
        (fun _ _ w => .ok ((0 : ℤ), w)) [] []
        (⟨(0 : ℤ), ⟨[], [0]⟩, []⟩ : World ℤ ℤ))).tracker =
      (⟨(0 : ℤ), ⟨[], [0]⟩, []⟩ : World ℤ ℤ).tracker :=
  (time_track_disabled_identity (fun _ => "") (fun _ => true) "f"
      (fun _ _ w => .ok ((0 : ℤ), w))).2.2 (fun _ _ _ => rfl) [] []
    ⟨0, ⟨[], [0]⟩, []⟩

/-- Concrete instance of the C6 theorem: a body that advances the
clock to 3 and returns 42. -/
theorem wrapped_transparent_on_success_witness :
    wrapped (fun _ => "") (fun _ => true) "f"
        (fun _ _ w1 => .ok ((42 : ℤ), ⟨3, w1.tracker, w1.log⟩)) [] []
        (⟨(0 : ℤ), ⟨[], [0]⟩, []⟩ : World ℤ ℤ) =
      .ok (42, ⟨3, ⟨[], [(0 : ℤ) + ((3 : ℤ) - 0)]⟩,
                [⟨"f", [], [], (3 : ℤ) - 0, (3 : ℤ) - 0 - 0⟩]⟩) :=
  wrapped_transparent_on_success (fun _ => "") (fun _ => true) "f"
    (fun _ _ w1 => .ok (42, ⟨3, w1.tracker, w1.log⟩)) [] []
    ⟨0, ⟨[], [0]⟩, []⟩ 42 ⟨3, ⟨[0], [0, 0]⟩, []⟩ 0 [] 0 0 []
    rfl rfl rfl rfl

/-- Concrete instance of the C7 theorem: one enter/exit pair run from
a fresh tracker restores both stack lengths. -/
theorem nested_pairs_restore_depth_witness :
    ∃ s' log',
      runOps [Op.enter (0 : ℤ), Op.exit 5 "f" ([] : List ℤ) []]
        (⟨[], [0]⟩ : TrackerState ℤ) [] = .ok (s', log') ∧
      s'.entering_times = (⟨[], [(0 : ℤ)]⟩ : TrackerState ℤ).entering_times ∧
      s'.entering_times.length =
        (⟨[], [(0 : ℤ)]⟩ : TrackerState ℤ).entering_times.length ∧
      s'.total_times.length =
        (⟨[], [(0 : ℤ)]⟩ : TrackerState ℤ).total_times.length :=
  nested_pairs_restore_depth [Op.enter 0, Op.exit 5 "f" [] []] [5 - 0]
    (TopSeq.cons TopSeq.nil TopSeq.nil) ⟨[], [0]⟩ 0 [] rfl []

/-- Concrete instance of the C8 theorem: an enter on isolated instance
0 leaves isolated instance 1 unchanged. -/
theorem instancing_modes_witness :
    ((⟨⟨[], [0]⟩, fun _ => ⟨[], [0]⟩⟩ : Process ℕ ℕ ℤ).enterOn
        (.isolated 0) 7).iso 1 =
      (⟨⟨[], [0]⟩, fun _ => ⟨[], [0]⟩⟩ : Process ℕ ℕ ℤ).iso 1 :=
  ((instancing_modes ℕ ℕ ℤ ℤ).1 ⟨⟨[], [0]⟩, fun _ => ⟨[], [0]⟩⟩ 0 7).2.1 1
    (by decide)

/-- Concrete instance of the C9 theorem: after one top-level call of
total time `5 - 0` from a fresh tracker, the root accumulator holds
that sum. -/
theorem root_accumulator_totals_witness :
    ∃ log',
      runOps [Op.enter (0 : ℤ), Op.exit 5 "f" ([] : List ℤ) []]
        (TimeTracker.initState ℤ) [] =
      .ok (⟨[], [List.sum [(5 : ℤ) - 0]]⟩, log') :=
  (root_accumulator_totals ℤ ℤ).1 [Op.enter 0, Op.exit 5 "f" [] []] [5 - 0]
    (TopSeq.cons TopSeq.nil TopSeq.nil)

/-- Concrete instance of the C10 theorem: a logger that always raises
still leaves the tracker fully popped. -/
theorem exit_logger_failure_leaves_popped_state_witness :
    TimeTracker._exit (fun _ => false) "f" ([] : List ℤ) []
        (⟨(9 : ℤ), ⟨[5], [2, 7]⟩, []⟩ : World ℤ ℤ) =
      .error (.loggerFailure, ⟨9, ⟨[], [(7 : ℤ) + ((9 : ℤ) - 5)]⟩, []⟩) ∧
    ((⟨(9 : ℤ), ⟨[5], [2, 7]⟩, []⟩ : World ℤ ℤ).tracker.inv →
      TrackerState.inv ⟨[], [(7 : ℤ) + ((9 : ℤ) - 5)]⟩) :=
  exit_logger_failure_leaves_popped_state (fun _ => false) "f" [] []
    ⟨9, ⟨[5], [2, 7]⟩, []⟩ 5 [] 2 7 [] rfl rfl rfl
